import Mathlib

/-!
# Verification of the syncbit sync orchestration engine

A shallow embedding of the sync orchestration engine (`src/scheduler.py`,
`src/sync_state.py`, `src/fitbit_collector.py`, `src/victoria_writer.py`)
together with proofs about its checkpointing, backfill, and rate-limit
handling behaviour.

Modelling conventions:

* Python `datetime` values are modelled by `DateTime`: a calendar day
  (`day : Int`, the value of `.date()` / `strftime "%Y-%m-%d"`) together with
  a time-of-day component (`minute : Nat`, intended `< 1440`).  The engine
  only ever shifts datetimes by whole days (`timedelta(days=n)`), truncates
  them to midnight (`.replace(hour=0, minute=0, second=0, microsecond=0)`),
  or parses a date string (`strptime`, giving midnight); all of these
  preserve or zero the time-of-day, so lexicographic comparison on
  `(day, minute)` agrees with chronological comparison of the Python
  datetimes whenever `minute < 1440`.
* The Fitbit collector is an external collaborator: each call to
  `get_daily_data` is resolved by an oracle `f : Nat → FetchResult` indexed
  by the number of fetch calls made so far (like a mock's `side_effect`
  list).  Likewise each `write_daily_data` call is resolved by an oracle
  `w : Nat → Bool`.
* `RateLimitError`'s dynamically attached attributes (`retry_after`,
  `remaining`, `quota_reset`) are modelled as `Option` fields; `none` means
  the attribute is absent (so Python's `hasattr`/`is not None` tests become
  `Option` matches, and truthiness tests additionally exclude `0`).
* The engine's observable actions (fetch attempts, batch flushes, state
  updates, waits, escalations, aborts) are recorded in an event trace.
  Pure pacing sleeps (the fixed 30-second inter-request delay) carry no
  decision content and are not recorded.
-/

set_option autoImplicit false

namespace Syncbit

/-! ### Datetimes (`datetime.datetime` as used by the scheduler) -/

/-- A Python `datetime`: a calendar day plus a time-of-day in minutes.
The engine only adds whole days, truncates to midnight, and compares, so
this pair is a faithful model whenever `minute < 1440`. -/
structure DateTime where
  day : Int
  minute : Nat
deriving DecidableEq, Repr

/-- `a <= b` on datetimes (lexicographic; chronological for in-range minutes). -/
def DateTime.leB (a b : DateTime) : Bool :=
  decide (a.day < b.day) || (decide (a.day = b.day) && decide (a.minute ≤ b.minute))

/-- `a < b` on datetimes. -/
def DateTime.ltB (a b : DateTime) : Bool :=
  !(DateTime.leB b a)

/-- `t + timedelta(days=n)`. -/
def DateTime.addDays (t : DateTime) (n : Int) : DateTime :=
  { t with day := t.day + n }

/-- `t.replace(hour=0, minute=0, second=0, microsecond=0)`. -/
def DateTime.midnight (t : DateTime) : DateTime :=
  { t with minute := 0 }

/-- `datetime.strptime(s, "%Y-%m-%d")` for the stored date string naming day `d`. -/
def dateTicks (d : Int) : DateTime :=
  ⟨d, 0⟩

/-! ### `RateLimitError` (`fitbit_collector.py`) and the scheduler's tests on it -/

/-- `RateLimitError`: `retry_after` is set by the constructor; `remaining` and
`quota_reset` are dynamically attached attributes that the collector in this
repository never sets (`none` = absent or `None`). -/
structure RateLimitError where
  retry_after : Option Nat
  remaining : Option Int
  quota_reset : Option Nat
deriving DecidableEq, Repr

/-- `RateLimitError.__init__(message, retry_after)`: only `retry_after` is set. -/
def mkRateLimitError (retryAfter : Nat) : RateLimitError :=
  { retry_after := some retryAfter, remaining := none, quota_reset := none }

/-- The error `FitbitCollector._make_request` raises on HTTP 429:
`retry_after = int(headers.get("Retry-After", "60"))`. -/
def collector_rate_limit (retryAfterHeader : Option Nat) : RateLimitError :=
  mkRateLimitError (retryAfterHeader.getD 60)

/-- `hasattr(e, "remaining") and e.remaining is not None and e.remaining <= 0`
(scheduler.py, the quota-exhaustion test). -/
def quotaExhausted (e : RateLimitError) : Bool :=
  match e.remaining with
  | some r => decide (r ≤ 0)
  | none => false

/-- `e.retry_after if hasattr(e, "retry_after") and e.retry_after else 60`
(note Python truthiness: `retry_after == 0` also falls back to 60). -/
def baseWaitTime (e : RateLimitError) : Nat :=
  match e.retry_after with
  | some r => if r = 0 then 60 else r
  | none => 60

/-- `hasattr(e, "quota_reset") and e.quota_reset` (truthiness: `0` is falsy). -/
def quotaResetTruthy (e : RateLimitError) : Bool :=
  match e.quota_reset with
  | some q => decide (q ≠ 0)
  | none => false

/-- The extended wait chosen by `_backfill_with_incremental_sync` after
`max_consecutive_rate_limits` consecutive hits: the quota reset time when the
quota is exhausted and a (truthy) reset time is attached, else 300 seconds. -/
def escalationWaitTime (e : RateLimitError) : Nat :=
  if quotaExhausted e && quotaResetTruthy e then e.quota_reset.getD 300 else 300

/-! ### Collector (`fitbit_collector.py`) -/

/-- Result of one `collector.get_daily_data` call, decided by the oracle:
success, a `RateLimitError`, or any other exception. -/
inductive FetchResult where
  | ok
  | rateLimited (e : RateLimitError)
  | err
deriving DecidableEq, Repr

/-- The engine-visible part of one day's gathered data: `data["date"]`
(the payload is opaque to the engine). -/
structure DailyRecord where
  date : Int
deriving DecidableEq, Repr

/-- `get_daily_data(date)` on success: `data["date"] = date.strftime("%Y-%m-%d")`. -/
def get_daily_data (t : DateTime) : DailyRecord :=
  ⟨t.day⟩

/-- Outcome of the profile lookup inside `get_first_available_date`. -/
inductive ProfileResult where
  | fetchFailed
  | noMemberSince
  | memberSince (d : Int)
deriving DecidableEq, Repr

/-- `FitbitCollector.get_first_available_date`: the profile's `memberSince`
date when the lookup succeeds and the field is present, else the fallback
`datetime.now() - timedelta(days=30)`.  (The `-> datetime | None` annotation
notwithstanding, every path returns a date.) -/
def get_first_available_date (profile : ProfileResult) (now : DateTime) : Option DateTime :=
  match profile with
  | .memberSince d => some (dateTicks d)
  | .fetchFailed => some (now.addDays (-30))
  | .noMemberSince => some (now.addDays (-30))

/-! ### Sink (`victoria_writer.py`) -/

/-- `VictoriaMetricsWriter.write_multiple_days`: one `write_daily_data` call
per record, resolved by the write oracle `w` starting at call index `idx`;
returns `(successful_count, failed_count)`. -/
def write_multiple_days (w : Nat → Bool) (idx : Nat) (batch : List DailyRecord) : Nat × Nat :=
  match batch with
  | [] => (0, 0)
  | _ :: rest =>
    let tail := write_multiple_days w (idx + 1) rest
    if w idx then (tail.1 + 1, tail.2) else (tail.1, tail.2 + 1)

/-! ### Progress store (`sync_state.py`) -/

/-- `SyncState`: `last_successful_date` as a day number (the `last_sync`
wall-clock timestamp plays no role in any decision). -/
structure SyncState where
  last : Option Int
deriving DecidableEq, Repr

/-- `SyncState.update_last_sync(date_str)`: unconditionally overwrite. -/
def SyncState.update_last_sync (_st : SyncState) (d : Int) : SyncState :=
  { last := some d }

/-- `SyncState.get_last_successful_date`. -/
def SyncState.get_last_successful_date (st : SyncState) : Option Int :=
  st.last

/-! ### Observable events -/

/-- Trace of the engine's observable actions. -/
inductive Event where
  | fetchAttempt (d : Int)
  | fetched (d : Int)
  | flushed (dates : List Int) (succ fail : Nat)
  | updated (d : Int)
  | waited (s : Nat)
  | escalated (s : Nat)
  | abortedBackfill
  | quotaSkip (d : Int)
  | rateLimitGiveUp (d : Int)
  | couldNotDetermineFirst
  | backfillRun (startTs endTs : DateTime)
deriving DecidableEq, Repr

/-- The days for which a fetch was attempted (one entry per `get_daily_data` call). -/
def fetchedDays (evs : List Event) : List Int :=
  evs.filterMap fun e =>
    match e with
    | .fetchAttempt d => some d
    | _ => none

/-- The dates passed to `update_last_sync`, in call order. -/
def updatesOf (evs : List Event) : List Int :=
  evs.filterMap fun e =>
    match e with
    | .updated d => some d
    | _ => none

/-- All days handed to the sink across every flush, in order. -/
def flushedDaysAll (evs : List Event) : List Int :=
  (evs.filterMap fun e =>
    match e with
    | .flushed ds _ _ => some ds
    | _ => none).flatten

/-- Is this event an escalated extended wait? -/
def isEscalated : Event → Bool
  | .escalated _ => true
  | _ => false

/-- Is this event a batch flush? -/
def isFlushed : Event → Bool
  | .flushed _ _ _ => true
  | _ => false

/-- Is this event the start of a backfill pass? -/
def isBackfillRun : Event → Bool
  | .backfillRun _ _ => true
  | _ => false

/-- Is this event the quota-exhausted skip in the steady-state cycle? -/
def isQuotaSkip : Event → Bool
  | .quotaSkip _ => true
  | _ => false

/-- Is this event the "could not determine first available date" early return? -/
def isCND : Event → Bool
  | .couldNotDetermineFirst => true
  | _ => false

/-! ### Backfill (`SyncScheduler._backfill_with_incremental_sync`) -/

/-- The mutable locals of `_backfill_with_incremental_sync`, plus the
progress store, the oracle cursors and the event trace. -/
structure BackfillSt where
  state : SyncState
  batch : List DailyRecord
  current : DateTime
  consec : Nat
  fIdx : Nat
  wIdx : Nat
  totalS : Nat
  totalF : Nat
  events : List Event
deriving DecidableEq, Repr

/-- The shared flush block: `write_multiple_days(batch)`, accumulate totals,
`update_last_sync(batch[-1]["date"])` when the batch is non-empty, clear. -/
def flushBatch (w : Nat → Bool) (st : BackfillSt) : BackfillSt :=
  let sf := write_multiple_days w st.wIdx st.batch
  let st' : BackfillSt :=
    { st with wIdx := st.wIdx + st.batch.length,
              totalS := st.totalS + sf.1, totalF := st.totalF + sf.2,
              events := st.events ++ [Event.flushed (st.batch.map (·.date)) sf.1 sf.2] }
  match st.batch.getLast? with
  | some r =>
    { st' with state := st'.state.update_last_sync r.date,
               events := st'.events ++ [Event.updated r.date],
               batch := [] }
  | none => { st' with batch := [] }

/-- Result of one iteration of the backfill `while` loop: continue to the
next iteration, or `break` out of the loop. -/
inductive StepRes where
  | next (st : BackfillSt)
  | halt (st : BackfillSt)
deriving Repr

/-- The state carried by a step result. -/
def StepRes.st : StepRes → BackfillSt
  | .next s => s
  | .halt s => s

/-- The `if batch:` guard before the shared flush block: flush only when the
pending batch is non-empty. -/
def maybeFlush (w : Nat → Bool) (st : BackfillSt) : BackfillSt :=
  if st.batch.isEmpty then st else flushBatch w st

/-- The success path shared by the main loop body and the post-escalation
final retry: append the fetched day, reset the consecutive counter, flush
when the batch is full (10) or `current_date == end_date`, advance the date. -/
def recordFetchOk (w : Nat → Bool) (endTs : DateTime) (st : BackfillSt) : BackfillSt :=
  let st :=
    { st with fIdx := st.fIdx + 1,
              events := st.events ++ [Event.fetchAttempt st.current.day, Event.fetched st.current.day],
              batch := st.batch ++ [get_daily_data st.current], consec := 0 }
  let st :=
    if 10 ≤ st.batch.length ∨ st.current = endTs then flushBatch w st else st
  { st with current := st.current.addDays 1 }

/-- One iteration of the `while current_date <= end_date` body of
`_backfill_with_incremental_sync` (batch size 10, threshold 3). -/
def backfillStep (f : Nat → FetchResult) (w : Nat → Bool) (endTs : DateTime)
    (st : BackfillSt) : StepRes :=
  match f st.fIdx with
  | .ok => .next (recordFetchOk w endTs st)
  | .rateLimited e =>
    let st :=
      { st with fIdx := st.fIdx + 1, consec := st.consec + 1,
                events := st.events ++ [Event.fetchAttempt st.current.day] }
    let st := maybeFlush w st
    if 3 ≤ st.consec then
      let wt := escalationWaitTime e
      let st := { st with events := st.events ++ [Event.escalated wt, Event.waited wt] }
      match f st.fIdx with
      | .ok => .next (recordFetchOk w endTs st)
      | .rateLimited _ =>
        .halt { st with fIdx := st.fIdx + 1,
                        events := st.events ++ [Event.fetchAttempt st.current.day, Event.abortedBackfill] }
      | .err =>
        .next { st with fIdx := st.fIdx + 1,
                        events := st.events ++ [Event.fetchAttempt st.current.day],
                        current := st.current.addDays 1 }
    else
      .next { st with events := st.events ++ [Event.waited (baseWaitTime e)] }
  | .err =>
    let st :=
      { st with fIdx := st.fIdx + 1,
                events := st.events ++ [Event.fetchAttempt st.current.day] }
    let st := maybeFlush w st
    .next { st with current := st.current.addDays 1 }

/-- The `while current_date <= end_date` loop, fuelled.  (Every iteration
either advances the date, increments the bounded consecutive-hit counter, or
breaks, so any fuel beyond that bound yields the same result.) -/
def backfillLoop (f : Nat → FetchResult) (w : Nat → Bool) (endTs : DateTime) :
    Nat → BackfillSt → BackfillSt
  | 0, st => st
  | fuel + 1, st =>
    if DateTime.leB st.current endTs then
      match backfillStep f w endTs st with
      | .next st' => backfillLoop f w endTs fuel st'
      | .halt st' => st'
    else st

/-- The locals of `_backfill_with_incremental_sync` at entry. -/
def initBackfillSt (state : SyncState) (startTs : DateTime) (fIdx wIdx : Nat)
    (evs : List Event) : BackfillSt :=
  { state := state, batch := [], current := startTs, consec := 0,
    fIdx := fIdx, wIdx := wIdx, totalS := 0, totalF := 0, events := evs }

/-- `SyncScheduler._backfill_with_incremental_sync(start_date, end_date)`. -/
def backfill_with_incremental_sync (f : Nat → FetchResult) (w : Nat → Bool)
    (fuel : Nat) (state : SyncState) (startTs endTs : DateTime)
    (fIdx wIdx : Nat) : BackfillSt :=
  backfillLoop f w endTs fuel
    (initBackfillSt state startTs fIdx wIdx [Event.backfillRun startTs endTs])

/-- `SyncScheduler.backfill_data()`: determine the range, then run the
incremental backfill.  `cfgStart` is `Config.BACKFILL_START_DATE` (as a day
number), `profile` feeds `get_first_available_date`. -/
def backfill_data (f : Nat → FetchResult) (w : Nat → Bool) (fuel : Nat)
    (cfgStart : Option Int) (profile : ProfileResult) (now : DateTime)
    (state : SyncState) (fIdx wIdx : Nat) : BackfillSt :=
  let endTs := now.addDays (-1)
  let noop : List Event → BackfillSt := fun evs =>
    initBackfillSt state now fIdx wIdx evs
  let run : DateTime → BackfillSt := fun startTs =>
    if DateTime.leB startTs endTs then
      backfill_with_incremental_sync f w fuel state startTs endTs fIdx wIdx
    else noop []
  match state.last with
  | some lastDay =>
    let lastTs := dateTicks lastDay
    if DateTime.leB endTs lastTs then
      match cfgStart with
      | some s =>
        if DateTime.ltB (dateTicks s) lastTs then
          backfill_with_incremental_sync f w fuel state (dateTicks s)
            (lastTs.addDays (-1)) fIdx wIdx
        else noop []
      | none => noop []
    else run (lastTs.addDays 1)
  | none =>
    match cfgStart with
    | some s => run (dateTicks s)
    | none =>
      match get_first_available_date profile now with
      | some firstTs => run firstTs
      | none => noop [Event.couldNotDetermineFirst]

/-! ### Steady-state sync driver (`SyncScheduler.sync_data`) -/

/-- The cursor state threaded through a steady-state cycle. -/
structure CycleSt where
  state : SyncState
  fIdx : Nat
  wIdx : Nat
  events : List Event
deriving DecidableEq, Repr

/-- `target_date.date() < datetime.now().date()` — only yesterday or earlier
counts as a complete day. -/
def isCompleteDay (target now : DateTime) : Bool :=
  decide (target.day < now.day)

/-- The `while retry_count <= max_retries` loop body of `sync_data` for one
target date.  `rLeft` is the number of transient-rate-limit retries still
allowed (`max_retries - retry_count`, initially 2). -/
def sync_one_date (f : Nat → FetchResult) (w : Nat → Bool) (skip : Bool)
    (now target : DateTime) : Nat → CycleSt → CycleSt
  | rLeft, st =>
    match f st.fIdx with
    | .ok =>
      let data := get_daily_data target
      let wrote := w st.wIdx
      let st :=
        { st with fIdx := st.fIdx + 1, wIdx := st.wIdx + 1,
                  events := st.events ++ [Event.fetchAttempt target.day] }
      if wrote then
        if isCompleteDay target now && !skip then
          { st with state := st.state.update_last_sync data.date,
                    events := st.events ++ [Event.updated data.date] }
        else st
      else st
    | .rateLimited e =>
      let st :=
        { st with fIdx := st.fIdx + 1,
                  events := st.events ++ [Event.fetchAttempt target.day] }
      if quotaExhausted e then
        { st with events := st.events ++ [Event.quotaSkip target.day] }
      else
        match rLeft with
        | 0 => { st with events := st.events ++ [Event.rateLimitGiveUp target.day] }
        | r + 1 =>
          sync_one_date f w skip now target r
            { st with events := st.events ++ [Event.waited (baseWaitTime e)] }
    | .err =>
      { st with fIdx := st.fIdx + 1,
                events := st.events ++ [Event.fetchAttempt target.day] }

/-- The per-date portion of `sync_data`: yesterday always, plus today when
`Config.INCLUDE_TODAY_DATA` is enabled, each with `max_retries = 2`. -/
def sync_data_dates (f : Nat → FetchResult) (w : Nat → Bool)
    (includeToday skip : Bool) (now : DateTime) (st : CycleSt) : CycleSt :=
  let targets := [now.addDays (-1)] ++ (if includeToday then [now] else [])
  targets.foldl (fun acc t => sync_one_date f w skip now t 2 acc) st

/-- `SyncScheduler.sync_data()`: the gap check (triggering a synchronous
backfill and recomputing `skip_state_update` from the reloaded state),
followed by the per-date fetch/write loop.  The optional device-info
collection step is omitted: it never touches the progress store. -/
def sync_data (f : Nat → FetchResult) (w : Nat → Bool) (fuel : Nat)
    (cfgStart : Option Int) (profile : ProfileResult) (includeToday : Bool)
    (now : DateTime) (state : SyncState) (fIdx wIdx : Nat) : CycleSt :=
  let yesterday := now.addDays (-1)
  match state.last with
  | some lastDay =>
    if DateTime.ltB (dateTicks lastDay) yesterday.midnight then
      let b := backfill_data f w fuel cfgStart profile now state fIdx wIdx
      let skip :=
        match b.state.last with
        | some lastDay2 => DateTime.ltB (dateTicks lastDay2) yesterday.midnight
        | none => false
      sync_data_dates f w includeToday skip now
        { state := b.state, fIdx := b.fIdx, wIdx := b.wIdx, events := b.events }
    else
      sync_data_dates f w includeToday false now
        { state := state, fIdx := fIdx, wIdx := wIdx, events := [] }
  | none =>
    sync_data_dates f w includeToday false now
      { state := state, fIdx := fIdx, wIdx := wIdx, events := [] }


/-! ### Basic lemmas -/

theorem getLast?_mem {α : Type} : ∀ (l : List α) (a : α), l.getLast? = some a → a ∈ l := by
  intro l
  induction l with
  | nil => intro a h; simp [List.getLast?] at h
  | cons x xs ih =>
    intro a h
    cases xs with
    | nil => simp [List.getLast?] at h; simp [h]
    | cons y ys =>
      rw [List.getLast?_cons_cons] at h
      have := ih a h
      simp [this]

theorem updatesOf_append (a b : List Event) :
    updatesOf (a ++ b) = updatesOf a ++ updatesOf b := by
  simp [updatesOf, List.filterMap_append]

theorem fetchedDays_append (a b : List Event) :
    fetchedDays (a ++ b) = fetchedDays a ++ fetchedDays b := by
  simp [fetchedDays, List.filterMap_append]

/-! ### Event-filter invariance

The backfill machinery only ever appends fetch/flush/update/wait/escalation
events; the steady-state machinery only ever appends fetch/update/wait/
quota-skip/give-up events.  We package this as filter invariance for any
predicate ignoring those event kinds. -/

/-- A predicate that ignores every event kind the backfill loop can emit. -/
def BackfillSilent (p : Event → Bool) : Prop :=
  (∀ d, p (.fetchAttempt d) = false) ∧ (∀ d, p (.fetched d) = false) ∧
  (∀ ds s fl, p (.flushed ds s fl) = false) ∧ (∀ d, p (.updated d) = false) ∧
  (∀ s, p (.waited s) = false) ∧ (∀ s, p (.escalated s) = false) ∧
  p .abortedBackfill = false

/-- A predicate that ignores every event kind the per-date sync loop can emit. -/
def SyncSilent (p : Event → Bool) : Prop :=
  (∀ d, p (.fetchAttempt d) = false) ∧ (∀ d, p (.updated d) = false) ∧
  (∀ s, p (.waited s) = false) ∧ (∀ d, p (.quotaSkip d) = false) ∧
  (∀ d, p (.rateLimitGiveUp d) = false)

theorem flushBatch_filter {p : Event → Bool} (hp : BackfillSilent p)
    (w : Nat → Bool) (st : BackfillSt) :
    (flushBatch w st).events.filter p = st.events.filter p := by
  obtain ⟨h1, h2, h3, h4, h5, h6, h7⟩ := hp
  unfold flushBatch
  cases st.batch.getLast? <;>
    simp [List.filter_append, List.filter, h3, h4]

theorem flushBatch_fIdx (w : Nat → Bool) (st : BackfillSt) :
    (flushBatch w st).fIdx = st.fIdx := by
  unfold flushBatch; cases st.batch.getLast? <;> rfl

theorem flushBatch_current (w : Nat → Bool) (st : BackfillSt) :
    (flushBatch w st).current = st.current := by
  unfold flushBatch; cases st.batch.getLast? <;> rfl

theorem flushBatch_consec (w : Nat → Bool) (st : BackfillSt) :
    (flushBatch w st).consec = st.consec := by
  unfold flushBatch; cases st.batch.getLast? <;> rfl

theorem flushBatch_batch (w : Nat → Bool) (st : BackfillSt) :
    (flushBatch w st).batch = [] := by
  unfold flushBatch; cases st.batch.getLast? <;> rfl

theorem maybeFlush_fIdx (w : Nat → Bool) (st : BackfillSt) :
    (maybeFlush w st).fIdx = st.fIdx := by
  unfold maybeFlush; split <;> simp [flushBatch_fIdx]

theorem maybeFlush_current (w : Nat → Bool) (st : BackfillSt) :
    (maybeFlush w st).current = st.current := by
  unfold maybeFlush; split <;> simp [flushBatch_current]

theorem maybeFlush_consec (w : Nat → Bool) (st : BackfillSt) :
    (maybeFlush w st).consec = st.consec := by
  unfold maybeFlush; split <;> simp [flushBatch_consec]

theorem maybeFlush_filter {p : Event → Bool} (hp : BackfillSilent p)
    (w : Nat → Bool) (st : BackfillSt) :
    (maybeFlush w st).events.filter p = st.events.filter p := by
  unfold maybeFlush; split
  · rfl
  · exact flushBatch_filter hp w st

theorem recordFetchOk_filter {p : Event → Bool} (hp : BackfillSilent p)
    (w : Nat → Bool) (endTs : DateTime) (st : BackfillSt) :
    (recordFetchOk w endTs st).events.filter p = st.events.filter p := by
  obtain ⟨h1, h2, h3, h4, h5, h6, h7⟩ := hp
  unfold recordFetchOk
  dsimp only
  split
  · rw [flushBatch_filter ⟨h1, h2, h3, h4, h5, h6, h7⟩]
    simp [List.filter_append, List.filter, h1, h2]
  · simp [List.filter_append, List.filter, h1, h2]

theorem backfillStep_filter {p : Event → Bool} (hp : BackfillSilent p)
    (f : Nat → FetchResult) (w : Nat → Bool) (endTs : DateTime) (st : BackfillSt) :
    ((backfillStep f w endTs st).st).events.filter p = st.events.filter p := by
  obtain ⟨h1, h2, h3, h4, h5, h6, h7⟩ := hp
  unfold backfillStep
  cases hf : f st.fIdx with
  | ok =>
    simpa [StepRes.st] using recordFetchOk_filter ⟨h1, h2, h3, h4, h5, h6, h7⟩ w endTs st
  | rateLimited e =>
    dsimp only
    simp only [maybeFlush_fIdx]
    split
    · cases hf2 : f (st.fIdx + 1) <;>
        simp [StepRes.st, recordFetchOk_filter ⟨h1, h2, h3, h4, h5, h6, h7⟩,
          maybeFlush_filter ⟨h1, h2, h3, h4, h5, h6, h7⟩,
          List.filter_append, List.filter, h1, h2, h5, h6, h7]
    · simp [StepRes.st, maybeFlush_filter ⟨h1, h2, h3, h4, h5, h6, h7⟩,
        List.filter_append, List.filter, h1, h5]
  | err =>
    dsimp only
    simp [StepRes.st, maybeFlush_filter ⟨h1, h2, h3, h4, h5, h6, h7⟩,
      List.filter_append, List.filter, h1]

theorem backfillLoop_filter {p : Event → Bool} (hp : BackfillSilent p)
    (f : Nat → FetchResult) (w : Nat → Bool) (endTs : DateTime) :
    ∀ (fuel : Nat) (st : BackfillSt),
      (backfillLoop f w endTs fuel st).events.filter p = st.events.filter p := by
  intro fuel
  induction fuel with
  | zero => intro st; rfl
  | succ n ih =>
    intro st
    unfold backfillLoop
    split
    · cases hs : backfillStep f w endTs st with
      | next st2 =>
        rw [ih st2]
        have h := backfillStep_filter hp f w endTs st
        rw [hs] at h
        exact h
      | halt st2 =>
        have h := backfillStep_filter hp f w endTs st
        rw [hs] at h
        exact h
    · rfl

theorem sync_one_date_filter {p : Event → Bool} (hp : SyncSilent p)
    (f : Nat → FetchResult) (w : Nat → Bool) (skip : Bool) (now target : DateTime) :
    ∀ (rLeft : Nat) (st : CycleSt),
      (sync_one_date f w skip now target rLeft st).events.filter p
        = st.events.filter p := by
  obtain ⟨h1, h2, h3, h4, h5⟩ := hp
  intro rLeft
  induction rLeft with
  | zero =>
    intro st
    unfold sync_one_date
    dsimp only
    cases hf : f st.fIdx with
    | ok =>
      cases hw : w st.wIdx <;>
        cases hcs : isCompleteDay target now && !skip <;>
        simp [hw, hcs, List.filter_append, List.filter, h1, h2]
    | rateLimited e =>
      cases hq : quotaExhausted e <;>
        simp [hq, List.filter_append, List.filter, h1, h4, h5]
    | err => simp [List.filter_append, List.filter, h1]
  | succ r ih =>
    intro st
    unfold sync_one_date
    dsimp only
    cases hf : f st.fIdx with
    | ok =>
      cases hw : w st.wIdx <;>
        cases hcs : isCompleteDay target now && !skip <;>
        simp [hw, hcs, List.filter_append, List.filter, h1, h2]
    | rateLimited e =>
      cases hq : quotaExhausted e with
      | false =>
        simp only [hq, Bool.false_eq_true, if_false, ite_false]
        rw [ih]
        simp [List.filter_append, List.filter, h1, h3]
      | true => simp [hq, List.filter_append, List.filter, h1, h4]
    | err => simp [List.filter_append, List.filter, h1]

theorem sync_data_dates_filter {p : Event → Bool} (hp : SyncSilent p)
    (f : Nat → FetchResult) (w : Nat → Bool) (it skip : Bool) (now : DateTime)
    (st : CycleSt) :
    (sync_data_dates f w it skip now st).events.filter p = st.events.filter p := by
  unfold sync_data_dates
  cases it <;>
    simp [List.foldl, sync_one_date_filter hp]


/-! ### Behaviour of the per-date steady-state loop -/

theorem sync_one_date_spec (f : Nat → FetchResult) (w : Nat → Bool) (skip : Bool)
    (now target : DateTime) :
    ∀ (rLeft : Nat) (st : CycleSt),
      ((sync_one_date f w skip now target rLeft st).state = st.state
        ∧ updatesOf (sync_one_date f w skip now target rLeft st).events
            = updatesOf st.events)
      ∨ (skip = false ∧ target.day < now.day
          ∧ (sync_one_date f w skip now target rLeft st).state.last = some target.day
          ∧ updatesOf (sync_one_date f w skip now target rLeft st).events
              = updatesOf st.events ++ [target.day]) := by
  intro rLeft
  induction rLeft with
  | zero =>
    intro st
    unfold sync_one_date
    dsimp only
    cases hf : f st.fIdx with
    | ok =>
      cases hw : w st.wIdx with
      | false => left; simp [hw, updatesOf_append, updatesOf]
      | true =>
        cases hcs : isCompleteDay target now && !skip with
        | false => left; simp [hw, hcs, updatesOf_append, updatesOf]
        | true =>
          right
          have hc : isCompleteDay target now = true ∧ !skip = true := by
            simpa [Bool.and_eq_true] using hcs
          refine ⟨by simpa using hc.2, by simpa [isCompleteDay] using hc.1, ?_, ?_⟩
          · simp [hw, hcs, SyncState.update_last_sync, get_daily_data]
          · simp [hw, hcs, updatesOf_append, updatesOf, get_daily_data]
    | rateLimited e =>
      cases hq : quotaExhausted e <;>
        (left; simp [hq, updatesOf_append, updatesOf])
    | err => left; simp [updatesOf_append, updatesOf]
  | succ r ih =>
    intro st
    unfold sync_one_date
    dsimp only
    cases hf : f st.fIdx with
    | ok =>
      cases hw : w st.wIdx with
      | false => left; simp [hw, updatesOf_append, updatesOf]
      | true =>
        cases hcs : isCompleteDay target now && !skip with
        | false => left; simp [hw, hcs, updatesOf_append, updatesOf]
        | true =>
          right
          have hc : isCompleteDay target now = true ∧ !skip = true := by
            simpa [Bool.and_eq_true] using hcs
          refine ⟨by simpa using hc.2, by simpa [isCompleteDay] using hc.1, ?_, ?_⟩
          · simp [hw, hcs, SyncState.update_last_sync, get_daily_data]
          · simp [hw, hcs, updatesOf_append, updatesOf, get_daily_data]
    | rateLimited e =>
      cases hq : quotaExhausted e with
      | false =>
        simp only [hq, Bool.false_eq_true, if_false, ite_false]
        have H := ih { st with
            fIdx := st.fIdx + 1,
            events := st.events ++ [Event.fetchAttempt target.day] ++ [Event.waited (baseWaitTime e)] }
        rcases H with ⟨hs, hu⟩ | ⟨h0, h1, h2, h3⟩
        · left
          constructor
          · rw [hs]
          · rw [hu]; simp [updatesOf_append, updatesOf]
        · right
          refine ⟨h0, h1, h2, ?_⟩
          rw [h3]; simp [updatesOf_append, updatesOf]
      | true => left; simp [hq, updatesOf_append, updatesOf]
    | err => left; simp [updatesOf_append, updatesOf]

theorem sync_one_date_nowrite (f : Nat → FetchResult) (w : Nat → Bool)
    (hw : ∀ i, w i = false) (skip : Bool) (now target : DateTime) :
    ∀ (rLeft : Nat) (st : CycleSt),
      (sync_one_date f w skip now target rLeft st).state = st.state
      ∧ updatesOf (sync_one_date f w skip now target rLeft st).events
          = updatesOf st.events := by
  intro rLeft
  induction rLeft with
  | zero =>
    intro st
    unfold sync_one_date
    dsimp only
    cases hf : f st.fIdx with
    | ok => simp [hw st.wIdx, updatesOf_append, updatesOf]
    | rateLimited e =>
      cases hq : quotaExhausted e <;> simp [hq, updatesOf_append, updatesOf]
    | err => simp [updatesOf_append, updatesOf]
  | succ r ih =>
    intro st
    unfold sync_one_date
    dsimp only
    cases hf : f st.fIdx with
    | ok => simp [hw st.wIdx, updatesOf_append, updatesOf]
    | rateLimited e =>
      cases hq : quotaExhausted e with
      | false =>
        simp only [hq, Bool.false_eq_true, if_false, ite_false]
        have H := ih { st with
            fIdx := st.fIdx + 1,
            events := st.events ++ [Event.fetchAttempt target.day] ++ [Event.waited (baseWaitTime e)] }
        rcases H with ⟨hs, hu⟩
        constructor
        · rw [hs]
        · rw [hu]; simp [updatesOf_append, updatesOf]
      | true => simp [hq, updatesOf_append, updatesOf]
    | err => simp [updatesOf_append, updatesOf]

theorem sync_data_dates_spec (f : Nat → FetchResult) (w : Nat → Bool)
    (it skip : Bool) (now : DateTime) (st : CycleSt) :
    ((sync_data_dates f w it skip now st).state = st.state
      ∧ updatesOf (sync_data_dates f w it skip now st).events = updatesOf st.events)
    ∨ (skip = false
        ∧ (sync_data_dates f w it skip now st).state.last = some (now.day - 1)
        ∧ updatesOf (sync_data_dates f w it skip now st).events
            = updatesOf st.events ++ [now.day - 1]) := by
  have hyday : (now.addDays (-1)).day = now.day - 1 := by
    simp [DateTime.addDays]
    ring
  unfold sync_data_dates
  cases it with
  | false =>
    dsimp only [List.foldl]
    rcases sync_one_date_spec f w skip now (now.addDays (-1)) 2 st
      with ⟨hs, hu⟩ | ⟨h0, _h1, h2, h3⟩
    · left; exact ⟨hs, hu⟩
    · right
      rw [hyday] at h2 h3
      exact ⟨h0, h2, h3⟩
  | true =>
    dsimp only [List.foldl]
    rcases sync_one_date_spec f w skip now now 2
        (sync_one_date f w skip now (now.addDays (-1)) 2 st)
      with ⟨hs, hu⟩ | ⟨_h0, h1, _h2, _h3⟩
    · rcases sync_one_date_spec f w skip now (now.addDays (-1)) 2 st
        with ⟨hs0, hu0⟩ | ⟨h0, _h1, h2, h3⟩
      · left
        exact ⟨by rw [hs, hs0], by rw [hu, hu0]⟩
      · right
        rw [hyday] at h2 h3
        exact ⟨h0, by rw [hs, h2], by rw [hu, h3]⟩
    · exact absurd h1 (lt_irrefl _)

theorem sync_data_dates_nowrite (f : Nat → FetchResult) (w : Nat → Bool)
    (hw : ∀ i, w i = false) (it skip : Bool) (now : DateTime) (st : CycleSt) :
    (sync_data_dates f w it skip now st).state = st.state
    ∧ updatesOf (sync_data_dates f w it skip now st).events = updatesOf st.events := by
  unfold sync_data_dates
  cases it with
  | false =>
    dsimp only [List.foldl]
    exact sync_one_date_nowrite f w hw skip now (now.addDays (-1)) 2 st
  | true =>
    dsimp only [List.foldl]
    rcases sync_one_date_nowrite f w hw skip now now 2
        (sync_one_date f w skip now (now.addDays (-1)) 2 st) with ⟨hs, hu⟩
    rcases sync_one_date_nowrite f w hw skip now (now.addDays (-1)) 2 st with ⟨hs0, hu0⟩
    exact ⟨by rw [hs, hs0], by rw [hu, hu0]⟩


/-! ### `updatesOf` on the event snippets the engine appends -/

theorem updatesOf_fa (d : Int) : updatesOf [Event.fetchAttempt d] = [] := rfl

theorem updatesOf_fa_fetched (d d2 : Int) :
    updatesOf [Event.fetchAttempt d, Event.fetched d2] = [] := rfl

theorem updatesOf_fa_waited (d : Int) (sv : Nat) :
    updatesOf [Event.fetchAttempt d, Event.waited sv] = [] := rfl

theorem updatesOf_fa_aborted (d : Int) :
    updatesOf [Event.fetchAttempt d, Event.abortedBackfill] = [] := rfl

theorem updatesOf_flushed_one (ds : List Int) (a b : Nat) :
    updatesOf [Event.flushed ds a b] = [] := rfl

theorem updatesOf_updated_one (d : Int) : updatesOf [Event.updated d] = [d] := rfl

theorem updatesOf_waited_one (sv : Nat) : updatesOf [Event.waited sv] = [] := rfl

theorem updatesOf_esc (s1 s2 : Nat) :
    updatesOf [Event.escalated s1, Event.waited s2] = [] := rfl

theorem updatesOf_brun (a b : DateTime) : updatesOf [Event.backfillRun a b] = [] := rfl

/-! ### Checkpoint-monotonicity invariant for gap-fill backfill runs -/

/-- Invariant carried through a backfill run that started strictly after
checkpoint day `L`: the stored date never drops below `L`, every pending
batch entry is a day `>= L`, the cursor is strictly beyond `L`, and every
`update_last_sync` call so far used a day `>= L`. -/
def BfInv (L : Int) (st : BackfillSt) : Prop :=
  (∃ M, st.state.last = some M ∧ L ≤ M) ∧
  (∀ r ∈ st.batch, L ≤ r.date) ∧
  L < st.current.day ∧
  (∀ d ∈ updatesOf st.events, L ≤ d)

theorem BfInv_of_fields {L : Int} {st st' : BackfillSt} (h : BfInv L st)
    (h1 : st'.state.last = st.state.last) (h2 : st'.batch = st.batch)
    (h3 : st.current.day ≤ st'.current.day)
    (h4 : updatesOf st'.events = updatesOf st.events) : BfInv L st' := by
  obtain ⟨⟨M, hM, hLM⟩, hb, hc, hu⟩ := h
  refine ⟨⟨M, by rw [h1, hM], hLM⟩, ?_, lt_of_lt_of_le hc h3, ?_⟩
  · intro r hr; rw [h2] at hr; exact hb r hr
  · intro d hd; rw [h4] at hd; exact hu d hd

theorem flushBatch_inv {L : Int} {st : BackfillSt} (w : Nat → Bool)
    (h : BfInv L st) : BfInv L (flushBatch w st) := by
  obtain ⟨⟨M, hM, hLM⟩, hb, hc, hu⟩ := h
  unfold flushBatch
  cases hl : st.batch.getLast? with
  | none =>
    refine ⟨⟨M, hM, hLM⟩, by simp, hc, ?_⟩
    intro d hd
    rw [updatesOf_append, updatesOf_flushed_one, List.append_nil] at hd
    exact hu d hd
  | some r =>
    have hrL : L ≤ r.date := hb r (getLast?_mem _ _ hl)
    refine ⟨⟨r.date, rfl, hrL⟩, by simp, hc, ?_⟩
    intro d hd
    rw [updatesOf_append, updatesOf_append, updatesOf_flushed_one, List.append_nil,
      updatesOf_updated_one] at hd
    rcases List.mem_append.mp hd with hd | hd
    · exact hu d hd
    · rw [List.mem_singleton.mp hd]; exact hrL

theorem maybeFlush_inv {L : Int} {st : BackfillSt} (w : Nat → Bool)
    (h : BfInv L st) : BfInv L (maybeFlush w st) := by
  unfold maybeFlush
  split
  · exact h
  · exact flushBatch_inv w h

theorem maybeFlush_batch (w : Nat → Bool) (st : BackfillSt) :
    (maybeFlush w st).batch = [] := by
  unfold maybeFlush
  split
  · next hb => simpa [List.isEmpty_iff] using hb
  · exact flushBatch_batch w st

theorem BfInv_current_succ {L : Int} {st : BackfillSt} (h : BfInv L st) :
    BfInv L { st with current := st.current.addDays 1 } := by
  refine BfInv_of_fields h rfl rfl ?_ rfl
  simp [DateTime.addDays]

theorem recordFetchOk_inv (w : Nat → Bool) (endTs : DateTime) {L : Int}
    {st : BackfillSt} (h : BfInv L st) : BfInv L (recordFetchOk w endTs st) := by
  obtain ⟨⟨M, hM, hLM⟩, hb, hc, hu⟩ := h
  have h1 : BfInv L { st with
      fIdx := st.fIdx + 1,
      events := st.events ++ [Event.fetchAttempt st.current.day, Event.fetched st.current.day],
      batch := st.batch ++ [get_daily_data st.current],
      consec := 0 } := by
    refine ⟨⟨M, hM, hLM⟩, ?_, hc, ?_⟩
    · intro r hr
      simp [get_daily_data] at hr
      rcases hr with hr | hr
      · exact hb r hr
      · rw [hr]; exact le_of_lt hc
    · intro d hd
      rw [updatesOf_append, updatesOf_fa_fetched, List.append_nil] at hd
      exact hu d hd
  unfold recordFetchOk
  dsimp only
  apply BfInv_current_succ
  split
  · exact flushBatch_inv w h1
  · exact h1

theorem backfillStep_inv (f : Nat → FetchResult) (w : Nat → Bool)
    (endTs : DateTime) {L : Int} {st : BackfillSt} (h : BfInv L st) :
    BfInv L ((backfillStep f w endTs st).st) := by
  unfold backfillStep
  cases hf : f st.fIdx with
  | ok =>
    simpa [StepRes.st] using recordFetchOk_inv w endTs h
  | rateLimited e =>
    dsimp only
    have h1 : BfInv L { st with
        fIdx := st.fIdx + 1,
        consec := st.consec + 1,
        events := st.events ++ [Event.fetchAttempt st.current.day] } := by
      refine BfInv_of_fields h rfl rfl (le_refl _) ?_
      simp [updatesOf_append, updatesOf_fa]
    have h2 := maybeFlush_inv w h1
    split
    · have h3 := @BfInv_of_fields L
        (maybeFlush w { st with
          fIdx := st.fIdx + 1,
          consec := st.consec + 1,
          events := st.events ++ [Event.fetchAttempt st.current.day] })
        { maybeFlush w { st with
          fIdx := st.fIdx + 1,
          consec := st.consec + 1,
          events := st.events ++ [Event.fetchAttempt st.current.day] } with
          events := (maybeFlush w { st with
            fIdx := st.fIdx + 1,
            consec := st.consec + 1,
            events := st.events ++ [Event.fetchAttempt st.current.day] }).events
              ++ [Event.escalated (escalationWaitTime e), Event.waited (escalationWaitTime e)] }
        h2 rfl rfl (le_refl _) (by simp [updatesOf_append, updatesOf_esc])
      split
      · simpa [StepRes.st] using recordFetchOk_inv w endTs h3
      · refine BfInv_of_fields h3 rfl rfl (le_refl _) ?_
        simp [StepRes.st, updatesOf_append, updatesOf_fa_aborted] <;> rfl
      · refine BfInv_of_fields h3 rfl rfl ?_ ?_
        · simp [StepRes.st, DateTime.addDays]
        · simp [StepRes.st, updatesOf_append, updatesOf_fa] <;> rfl
    · refine BfInv_of_fields h2 rfl rfl (le_refl _) ?_
      simp [StepRes.st, updatesOf_append, updatesOf_waited_one] <;> rfl
  | err =>
    dsimp only
    have h1 : BfInv L { st with
        fIdx := st.fIdx + 1,
        events := st.events ++ [Event.fetchAttempt st.current.day] } := by
      refine BfInv_of_fields h rfl rfl (le_refl _) ?_
      simp [updatesOf_append, updatesOf_fa]
    have h2 := maybeFlush_inv w h1
    refine BfInv_of_fields h2 rfl rfl ?_ rfl
    simp [StepRes.st, DateTime.addDays]

theorem backfillLoop_inv (f : Nat → FetchResult) (w : Nat → Bool)
    (endTs : DateTime) {L : Int} :
    ∀ (fuel : Nat) (st : BackfillSt), BfInv L st →
      BfInv L (backfillLoop f w endTs fuel st) := by
  intro fuel
  induction fuel with
  | zero => intro st h; exact h
  | succ n ih =>
    intro st h
    unfold backfillLoop
    split
    · cases hs : backfillStep f w endTs st with
      | next st2 =>
        apply ih
        have h2 := backfillStep_inv f w endTs h
        rw [hs] at h2
        exact h2
      | halt st2 =>
        have h2 := backfillStep_inv f w endTs h
        rw [hs] at h2
        exact h2
    · exact h


/-! ### Step characterisations -/

theorem maybeFlush_empty (w : Nat → Bool) (st : BackfillSt) (hb : st.batch = []) :
    maybeFlush w st = st := by
  unfold maybeFlush
  rw [if_pos]
  rw [hb]
  rfl

theorem recordFetchOk_consec (w : Nat → Bool) (endTs : DateTime) (st : BackfillSt) :
    (recordFetchOk w endTs st).consec = 0 := by
  unfold recordFetchOk
  dsimp only
  split
  · simp [flushBatch_consec]
  · rfl

/-- A successful fetch resets the consecutive rate-limit counter. -/
theorem backfillStep_consec_ok (f : Nat → FetchResult) (w : Nat → Bool)
    (endTs : DateTime) (st : BackfillSt) (hf : f st.fIdx = FetchResult.ok) :
    ((backfillStep f w endTs st).st).consec = 0 := by
  unfold backfillStep
  simp only [hf]
  simp [StepRes.st, recordFetchOk_consec]

/-- A non-rate-limit fetch error leaves the consecutive counter unchanged. -/
theorem backfillStep_consec_err (f : Nat → FetchResult) (w : Nat → Bool)
    (endTs : DateTime) (st : BackfillSt) (hf : f st.fIdx = FetchResult.err) :
    ((backfillStep f w endTs st).st).consec = st.consec := by
  unfold backfillStep
  simp only [hf]
  simp [StepRes.st, maybeFlush_consec]

/-- A rate-limit hit either increments the counter, or resets it because the
post-escalation final retry succeeded. -/
theorem backfillStep_consec_rl (f : Nat → FetchResult) (w : Nat → Bool)
    (endTs : DateTime) (st : BackfillSt) (e : RateLimitError)
    (hf : f st.fIdx = FetchResult.rateLimited e) :
    ((backfillStep f w endTs st).st).consec = st.consec + 1
    ∨ (((backfillStep f w endTs st).st).consec = 0
        ∧ f (st.fIdx + 1) = FetchResult.ok) := by
  unfold backfillStep
  simp only [hf]
  rw [maybeFlush_fIdx]
  split
  · cases hf2 : f (st.fIdx + 1) with
    | ok =>
      right
      exact ⟨by simp [StepRes.st, recordFetchOk_consec], rfl⟩
    | rateLimited e2 =>
      left
      simp [StepRes.st, maybeFlush_consec]
    | err =>
      left
      simp [StepRes.st, maybeFlush_consec]
  · left
    simp [StepRes.st, maybeFlush_consec]

/-- On a non-rate-limit fetch error the backfill loop performs no retry at
all: it consumes exactly one fetch, flushes any pending batch, steps past the
date, keeps the consecutive counter, and always continues (never halts). -/
theorem backfillStep_err_spec (f : Nat → FetchResult) (w : Nat → Bool)
    (endTs : DateTime) (st : BackfillSt) (hf : f st.fIdx = FetchResult.err) :
    ∃ st', backfillStep f w endTs st = StepRes.next st'
      ∧ st'.fIdx = st.fIdx + 1 ∧ st'.current = st.current.addDays 1
      ∧ st'.batch = [] ∧ st'.consec = st.consec := by
  unfold backfillStep
  simp only [hf]
  refine ⟨_, rfl, ?_, ?_, ?_, ?_⟩ <;>
    simp [maybeFlush_fIdx, maybeFlush_current, maybeFlush_batch, maybeFlush_consec]

/-- A transient rate-limit hit (counter still below the threshold after
incrementing, pending batch empty): wait, do not advance the date. -/
theorem backfillStep_rl_transient (f : Nat → FetchResult) (w : Nat → Bool)
    (endTs : DateTime) (st : BackfillSt) (e : RateLimitError)
    (hf : f st.fIdx = FetchResult.rateLimited e) (hb : st.batch = [])
    (hc : st.consec + 1 < 3) :
    backfillStep f w endTs st = StepRes.next { st with
      fIdx := st.fIdx + 1, consec := st.consec + 1,
      events := st.events ++ [Event.fetchAttempt st.current.day]
        ++ [Event.waited (baseWaitTime e)] } := by
  unfold backfillStep
  simp only [hf]
  rw [maybeFlush_empty w _ (by simpa using hb)]
  dsimp only
  rw [if_neg (by omega)]

/-- The third consecutive rate-limit hit (pending batch empty): escalate,
wait the extended time, retry exactly once; if that final retry is
rate-limited again, the loop halts. -/
theorem backfillStep_rl_escalate_abort (f : Nat → FetchResult) (w : Nat → Bool)
    (endTs : DateTime) (st : BackfillSt) (e e2 : RateLimitError)
    (hf : f st.fIdx = FetchResult.rateLimited e) (hb : st.batch = [])
    (hc : 3 ≤ st.consec + 1) (hf2 : f (st.fIdx + 1) = FetchResult.rateLimited e2) :
    backfillStep f w endTs st = StepRes.halt { st with
      fIdx := st.fIdx + 2, consec := st.consec + 1,
      events := st.events ++ [Event.fetchAttempt st.current.day]
        ++ [Event.escalated (escalationWaitTime e), Event.waited (escalationWaitTime e)]
        ++ [Event.fetchAttempt st.current.day, Event.abortedBackfill] } := by
  unfold backfillStep
  simp only [hf]
  rw [maybeFlush_empty w _ (by simpa using hb)]
  dsimp only
  rw [if_pos (by omega)]
  simp only [hf2]


/-! ### The all-rate-limited run: three hits, one escalation, abort -/

/-- With every fetch rate-limited, a backfill run makes exactly 4 fetch
attempts for the start date — two transient waits, one escalated wait with a
single final retry — then halts with the date unadvanced and the store
untouched, for any fuel of at least 3. -/
theorem backfillLoop_all_rate_limited (e : RateLimitError) (w : Nat → Bool)
    (endTs : DateTime) (state : SyncState) (startTs : DateTime)
    (fIdx wIdx : Nat) (evs : List Event) (fuel : Nat) (hfuel : 3 ≤ fuel)
    (hle : DateTime.leB startTs endTs = true) :
    backfillLoop (fun _ => FetchResult.rateLimited e) w endTs fuel
        (initBackfillSt state startTs fIdx wIdx evs)
      = { state := state, batch := [], current := startTs, consec := 3,
          fIdx := fIdx + 4, wIdx := wIdx, totalS := 0, totalF := 0,
          events := evs ++ [Event.fetchAttempt startTs.day, Event.waited (baseWaitTime e),
            Event.fetchAttempt startTs.day, Event.waited (baseWaitTime e),
            Event.fetchAttempt startTs.day,
            Event.escalated (escalationWaitTime e), Event.waited (escalationWaitTime e),
            Event.fetchAttempt startTs.day, Event.abortedBackfill] } := by
  obtain ⟨k, rfl⟩ : ∃ k, fuel = k + 3 := ⟨fuel - 3, by omega⟩
  have hs1 := backfillStep_rl_transient (fun _ => FetchResult.rateLimited e) w endTs
    (initBackfillSt state startTs fIdx wIdx evs) e rfl rfl (by simp [initBackfillSt])
  rw [show k + 3 = (k + 2) + 1 from rfl, backfillLoop]
  rw [if_pos (show DateTime.leB (initBackfillSt state startTs fIdx wIdx evs).current endTs = true
    from hle)]
  rw [hs1]
  dsimp only [initBackfillSt]
  have hs2 := backfillStep_rl_transient (fun _ => FetchResult.rateLimited e) w endTs
    { state := state, batch := [], current := startTs, consec := 0 + 1, fIdx := fIdx + 1,
      wIdx := wIdx, totalS := 0, totalF := 0,
      events := evs ++ [Event.fetchAttempt startTs.day] ++ [Event.waited (baseWaitTime e)] }
    e rfl rfl (by simp)
  rw [show k + 2 = (k + 1) + 1 from rfl, backfillLoop]
  rw [if_pos hle]
  rw [hs2]
  dsimp only
  have hs3 := backfillStep_rl_escalate_abort (fun _ => FetchResult.rateLimited e) w endTs
    { state := state, batch := [], current := startTs, consec := 0 + 1 + 1, fIdx := fIdx + 1 + 1,
      wIdx := wIdx, totalS := 0, totalF := 0,
      events := evs ++ [Event.fetchAttempt startTs.day] ++ [Event.waited (baseWaitTime e)]
        ++ [Event.fetchAttempt startTs.day] ++ [Event.waited (baseWaitTime e)] }
    e e rfl rfl (by simp) rfl
  rw [show k + 1 = k + 1 from rfl, backfillLoop]
  rw [if_pos hle]
  rw [hs3]
  dsimp only
  simp [List.append_assoc]

/-! ### The all-successful run: gap ranges are covered day by day -/

/-- `[c, c+1, ..., c+n-1]`. -/
def dayRange (c : Int) : Nat → List Int
  | 0 => []
  | n + 1 => c :: dayRange (c + 1) n

theorem fetchedDays_fa_fetched (d d2 : Int) :
    fetchedDays [Event.fetchAttempt d, Event.fetched d2] = [d] := rfl

theorem fetchedDays_flushed_one (ds : List Int) (a b : Nat) :
    fetchedDays [Event.flushed ds a b] = [] := rfl

theorem fetchedDays_updated_one (d : Int) : fetchedDays [Event.updated d] = [] := rfl

theorem flushBatch_fetchedDays (w : Nat → Bool) (st : BackfillSt) :
    fetchedDays (flushBatch w st).events = fetchedDays st.events := by
  unfold flushBatch
  cases st.batch.getLast? <;>
    simp [fetchedDays_append, fetchedDays_flushed_one, fetchedDays_updated_one] <;> rfl

theorem recordFetchOk_current (w : Nat → Bool) (endTs : DateTime) (st : BackfillSt) :
    (recordFetchOk w endTs st).current = st.current.addDays 1 := by
  unfold recordFetchOk
  dsimp only
  split
  · simp [flushBatch_current]
  · rfl

theorem recordFetchOk_fetchedDays (w : Nat → Bool) (endTs : DateTime) (st : BackfillSt) :
    fetchedDays (recordFetchOk w endTs st).events
      = fetchedDays st.events ++ [st.current.day] := by
  unfold recordFetchOk
  dsimp only
  split
  · rw [flushBatch_fetchedDays]
    simp [fetchedDays_append, fetchedDays_fa_fetched]
  · simp [fetchedDays_append, fetchedDays_fa_fetched]

/-- With every fetch succeeding, a backfill run attempts exactly the days
from the cursor up to the end date, in order. -/
theorem backfillLoop_all_ok (w : Nat → Bool) (E : Int) (m : Nat) :
    ∀ (fuel : Nat) (st : BackfillSt) (c : Int), st.current = ⟨c, 0⟩ →
      (E + 1 - c).toNat ≤ fuel →
      fetchedDays (backfillLoop (fun _ => FetchResult.ok) w ⟨E, m⟩ fuel st).events
        = fetchedDays st.events ++ dayRange c (E + 1 - c).toNat := by
  intro fuel
  induction fuel with
  | zero =>
    intro st c hcur hn
    have h0 : (E + 1 - c).toNat = 0 := by omega
    rw [h0]
    simp [dayRange, backfillLoop]
  | succ n ih =>
    intro st c hcur hn
    by_cases hce : c ≤ E
    · have hcond : DateTime.leB st.current ⟨E, m⟩ = true := by
        rw [hcur]
        simp [DateTime.leB]
        omega
      unfold backfillLoop
      rw [if_pos hcond]
      show fetchedDays (backfillLoop (fun _ => FetchResult.ok) w ⟨E, m⟩ n
        (recordFetchOk w ⟨E, m⟩ st)).events = _
      rw [ih (recordFetchOk w ⟨E, m⟩ st) (c + 1)
        (by rw [recordFetchOk_current, hcur]; rfl) (by omega)]
      rw [recordFetchOk_fetchedDays, hcur]
      have hsplit : (E + 1 - c).toNat = (E + 1 - (c + 1)).toNat + 1 := by omega
      rw [hsplit]
      simp [dayRange]
    · have hcond : DateTime.leB st.current ⟨E, m⟩ = false := by
        rw [hcur]
        simp [DateTime.leB]
        omega
      have h0 : (E + 1 - c).toNat = 0 := by omega
      unfold backfillLoop
      rw [if_neg (by rw [hcond]; exact Bool.false_ne_true)]
      rw [h0]
      simp [dayRange]


/-! ### Silent-predicate instances -/

theorem syncSilent_isBackfillRun : SyncSilent isBackfillRun :=
  ⟨fun _ => rfl, fun _ => rfl, fun _ => rfl, fun _ => rfl, fun _ => rfl⟩

theorem backfillSilent_isBackfillRun : BackfillSilent isBackfillRun :=
  ⟨fun _ => rfl, fun _ => rfl, fun _ _ _ => rfl, fun _ => rfl, fun _ => rfl,
    fun _ => rfl, rfl⟩

theorem backfillSilent_isCND : BackfillSilent isCND :=
  ⟨fun _ => rfl, fun _ => rfl, fun _ _ _ => rfl, fun _ => rfl, fun _ => rfl,
    fun _ => rfl, rfl⟩

/-- The per-date loop never takes the quota-exhausted branch when every
rate-limit error the oracle produces fails the `remaining <= 0` test. -/
theorem sync_one_date_noQuotaSkip (f : Nat → FetchResult) (w : Nat → Bool)
    (skip : Bool) (now target : DateTime)
    (hf : ∀ i e, f i = FetchResult.rateLimited e → quotaExhausted e = false) :
    ∀ (rLeft : Nat) (st : CycleSt),
      (sync_one_date f w skip now target rLeft st).events.filter isQuotaSkip
        = st.events.filter isQuotaSkip := by
  intro rLeft
  induction rLeft with
  | zero =>
    intro st
    unfold sync_one_date
    dsimp only
    cases hfr : f st.fIdx with
    | ok =>
      cases hw : w st.wIdx <;> cases hcs : isCompleteDay target now && !skip <;>
        simp [hw, hcs, List.filter_append, List.filter, isQuotaSkip]
    | rateLimited e =>
      simp [hf st.fIdx e hfr, List.filter_append, List.filter, isQuotaSkip]
    | err => simp [List.filter_append, List.filter, isQuotaSkip]
  | succ r ih =>
    intro st
    unfold sync_one_date
    dsimp only
    cases hfr : f st.fIdx with
    | ok =>
      cases hw : w st.wIdx <;> cases hcs : isCompleteDay target now && !skip <;>
        simp [hw, hcs, List.filter_append, List.filter, isQuotaSkip]
    | rateLimited e =>
      simp only [hf st.fIdx e hfr, Bool.false_eq_true, if_false, ite_false]
      rw [ih]
      simp [List.filter_append, List.filter, isQuotaSkip]
    | err => simp [List.filter_append, List.filter, isQuotaSkip]

/-! ## Claims -/

/-- C2: the claim says a backfill flush whose sink writes all fail
(`successful_count = 0`) must not advance `last_synced_date`.  The code
advances it regardless: with a 10-day gap `[1, 10]` and a sink failing every
write, the flush reports `(0, 10)` yet the checkpoint is moved to day 10. -/
theorem c2_total_failure_still_advances :
    (backfill_data (fun _ => FetchResult.ok) (fun _ => false) 50 none
        ProfileResult.fetchFailed ⟨11, 720⟩ ⟨some 0⟩ 0 0).state.last = some 10
    ∧ (backfill_data (fun _ => FetchResult.ok) (fun _ => false) 50 none
        ProfileResult.fetchFailed ⟨11, 720⟩ ⟨some 0⟩ 0 0).events.filter isFlushed
      = [Event.flushed [1, 2, 3, 4, 5, 6, 7, 8, 9, 10] 0 10] :=
  ⟨rfl, rfl⟩

/-- C5: the claim (and the code's own log message) says a quota-exhausted
rate limit aborts the remaining target dates of the steady-state cycle.  The
code only breaks out of the per-date retry loop: with "include today"
enabled, a quota-exhausted signal on yesterday is followed by a fetch (and
write) of today in the same cycle.  The trace shows yesterday attempted
once (no retry, no raise) and today still fetched. -/
theorem c5_quota_exhausted_continues_today :
    (sync_data (fun i => if i = 0 then FetchResult.rateLimited ⟨some 60, some 0, some 1800⟩
        else FetchResult.ok) (fun _ => true) 50 none ProfileResult.fetchFailed true
        ⟨100, 720⟩ ⟨some 99⟩ 0 0).events
      = [Event.fetchAttempt 99, Event.quotaSkip 99, Event.fetchAttempt 100]
    ∧ (sync_data (fun i => if i = 0 then FetchResult.rateLimited ⟨some 60, some 0, some 1800⟩
        else FetchResult.ok) (fun _ => true) 50 none ProfileResult.fetchFailed true
        ⟨100, 720⟩ ⟨some 99⟩ 0 0).fIdx = 2 :=
  ⟨rfl, rfl⟩

/-- C6: the consecutive rate-limit counter survives moving to the next date
(a generic fetch error advances the date without touching it), is reset only
by a successful fetch (the main-path success or the post-escalation final
retry), and therefore three transient hits spread over three different dates
escalate exactly once: in the concrete run over days `[1, 5]` with
rate-limit/error pairs on days 1 and 2 and a third hit on day 3, the trace
contains exactly one escalated wait. -/
theorem c6_consecutive_counter :
    (∀ (f : Nat → FetchResult) (w : Nat → Bool) (endTs : DateTime) (st : BackfillSt),
        f st.fIdx = FetchResult.err →
        ((backfillStep f w endTs st).st).consec = st.consec)
    ∧ (∀ (f : Nat → FetchResult) (w : Nat → Bool) (endTs : DateTime) (st : BackfillSt),
        f st.fIdx = FetchResult.ok →
        ((backfillStep f w endTs st).st).consec = 0)
    ∧ (∀ (f : Nat → FetchResult) (w : Nat → Bool) (endTs : DateTime) (st : BackfillSt)
        (e : RateLimitError), f st.fIdx = FetchResult.rateLimited e →
        ((backfillStep f w endTs st).st).consec = st.consec + 1
        ∨ (((backfillStep f w endTs st).st).consec = 0
            ∧ f (st.fIdx + 1) = FetchResult.ok))
    ∧ ((backfill_data (fun i => [FetchResult.rateLimited (mkRateLimitError 60),
          FetchResult.err, FetchResult.rateLimited (mkRateLimitError 60), FetchResult.err,
          FetchResult.rateLimited (mkRateLimitError 60)].getD i FetchResult.ok)
        (fun _ => true) 50 none ProfileResult.fetchFailed ⟨6, 720⟩ ⟨some 0⟩ 0 0).events.filter
          isEscalated).length = 1 := by
  refine ⟨backfillStep_consec_err, backfillStep_consec_ok, backfillStep_consec_rl, ?_⟩
  rfl

/-- C6 witness: the general parts applied at concrete states. -/
theorem c6_witness :
    ((backfillStep (fun _ => FetchResult.err) (fun _ => true) ⟨3, 0⟩
        (initBackfillSt ⟨some 0⟩ ⟨1, 0⟩ 0 0 [])).st).consec
      = (initBackfillSt ⟨some 0⟩ ⟨1, 0⟩ 0 0 []).consec
    ∧ ((backfillStep (fun _ => FetchResult.ok) (fun _ => true) ⟨3, 0⟩
        (initBackfillSt ⟨some 0⟩ ⟨1, 0⟩ 0 0 [])).st).consec = 0 :=
  ⟨c6_consecutive_counter.1 _ _ _ _ rfl, c6_consecutive_counter.2.1 _ _ _ _ rfl⟩

/-- C7: in the per-date portion of a steady-state cycle the checkpoint is
only ever written with `yesterday(now)` (never today's date); with
`skip_state_update` set the store is untouched; and with a sink that never
confirms a write the store is untouched as well. -/
theorem c7_checkpoint_frame (f : Nat → FetchResult) (w : Nat → Bool)
    (it skip : Bool) (now : DateTime) (st : CycleSt) :
    (updatesOf (sync_data_dates f w it skip now st).events = updatesOf st.events
      ∨ updatesOf (sync_data_dates f w it skip now st).events
          = updatesOf st.events ++ [now.day - 1])
    ∧ (skip = true → (sync_data_dates f w it skip now st).state = st.state
        ∧ updatesOf (sync_data_dates f w it skip now st).events = updatesOf st.events)
    ∧ ((∀ i, w i = false) → (sync_data_dates f w it skip now st).state = st.state
        ∧ updatesOf (sync_data_dates f w it skip now st).events = updatesOf st.events) := by
  refine ⟨?_, ?_, ?_⟩
  · rcases sync_data_dates_spec f w it skip now st with ⟨_, hu⟩ | ⟨_, _, hu⟩
    · left; exact hu
    · right; exact hu
  · intro hskip
    rcases sync_data_dates_spec f w it skip now st with ⟨hs, hu⟩ | ⟨h0, _, _⟩
    · exact ⟨hs, hu⟩
    · rw [hskip] at h0; exact absurd h0 (by simp)
  · intro hw
    exact sync_data_dates_nowrite f w hw it skip now st

/-- C7 witness: with `skip_state_update` set, a concrete cycle leaves the
store untouched and performs no checkpoint update. -/
theorem c7_witness :
    (sync_data_dates (fun _ => FetchResult.ok) (fun _ => true) true true ⟨10, 720⟩
        ⟨⟨some 9⟩, 0, 0, []⟩).state = (⟨⟨some 9⟩, 0, 0, []⟩ : CycleSt).state
    ∧ updatesOf (sync_data_dates (fun _ => FetchResult.ok) (fun _ => true) true true ⟨10, 720⟩
        ⟨⟨some 9⟩, 0, 0, []⟩).events = updatesOf (⟨⟨some 9⟩, 0, 0, []⟩ : CycleSt).events :=
  (c7_checkpoint_frame (fun _ => FetchResult.ok) (fun _ => true) true true ⟨10, 720⟩
    ⟨⟨some 9⟩, 0, 0, []⟩).2.1 rfl

/-- C8: the claim says a failing date gets a small number of immediate
retries before being skipped, and that one bad day in a 10-day batch does
not prevent the other 9 days from being fetched *and flushed*.  In the
code the date is skipped with no retry at all, and days fetched after the
failure are only flushed by a later full-batch or error flush: in the
10-day run `[1, 10]` with day 3 failing once, day 3 is attempted exactly
once and only days 1 and 2 are ever handed to the sink. -/
theorem c8_counterexample :
    (backfill_data (fun i => if i = 2 then FetchResult.err else FetchResult.ok)
        (fun _ => true) 50 none ProfileResult.fetchFailed ⟨11, 720⟩ ⟨some 0⟩ 0 0).events.count
      (Event.fetchAttempt 3) = 1
    ∧ flushedDaysAll (backfill_data (fun i => if i = 2 then FetchResult.err else FetchResult.ok)
        (fun _ => true) 50 none ProfileResult.fetchFailed ⟨11, 720⟩ ⟨some 0⟩ 0 0).events
      = [1, 2] := by
  exact ⟨by rfl, by rfl⟩

/-- C8 (amended): on a non-rate-limit fetch error the planner performs no
retries: it consumes exactly one fetch, flushes any pending partial batch,
skips past the date with the consecutive counter untouched, and always
continues (a single bad day never halts the backfill).  Days after the
failure keep being fetched — in the 10-day run with day 3 failing, all ten
days are attempted — but they are written only when a later flush trigger
fires, so only the days before the failure reach the sink in that run. -/
theorem c8_skip_on_error_amended :
    (∀ (f : Nat → FetchResult) (w : Nat → Bool) (endTs : DateTime) (st : BackfillSt),
        f st.fIdx = FetchResult.err →
        ∃ st', backfillStep f w endTs st = StepRes.next st'
          ∧ st'.fIdx = st.fIdx + 1 ∧ st'.current = st.current.addDays 1
          ∧ st'.batch = [] ∧ st'.consec = st.consec)
    ∧ fetchedDays (backfill_data (fun i => if i = 2 then FetchResult.err else FetchResult.ok)
        (fun _ => true) 50 none ProfileResult.fetchFailed ⟨11, 720⟩ ⟨some 0⟩ 0 0).events
      = [1, 2, 3, 4, 5, 6, 7, 8, 9, 10]
    ∧ (backfill_data (fun i => if i = 2 then FetchResult.err else FetchResult.ok)
        (fun _ => true) 50 none ProfileResult.fetchFailed ⟨11, 720⟩ ⟨some 0⟩ 0 0).state.last
      = some 2 := by
  exact ⟨backfillStep_err_spec, rfl, rfl⟩

/-- C8 witness: the no-retry skip step applied at a concrete state. -/
theorem c8_witness :
    ∃ st', backfillStep (fun _ => FetchResult.err) (fun _ => true) ⟨3, 0⟩
        (initBackfillSt ⟨some 0⟩ ⟨1, 0⟩ 0 0 []) = StepRes.next st'
      ∧ st'.fIdx = (initBackfillSt ⟨some 0⟩ ⟨1, 0⟩ 0 0 []).fIdx + 1
      ∧ st'.current = (initBackfillSt ⟨some 0⟩ ⟨1, 0⟩ 0 0 []).current.addDays 1
      ∧ st'.batch = [] ∧ st'.consec = (initBackfillSt ⟨some 0⟩ ⟨1, 0⟩ 0 0 []).consec :=
  c8_skip_on_error_amended.1 _ _ _ _ rfl

/-- C9: every `RateLimitError` the collector raises carries only
`retry_after` (`Retry-After` header, default 60); its `remaining` and
`quota_reset` attributes are absent, so the scheduler's quota-exhaustion
test is false for it, backfill escalation always picks the fixed 300-second
fallback wait, and a steady-state cycle whose rate-limit errors all come
from this collector never takes the quota-exhausted skip branch. -/
theorem c9_collector_never_quota :
    (∀ h : Option Nat, (collector_rate_limit h).remaining = none
        ∧ (collector_rate_limit h).quota_reset = none
        ∧ (collector_rate_limit h).retry_after = some (h.getD 60))
    ∧ (∀ h : Option Nat, quotaExhausted (collector_rate_limit h) = false)
    ∧ (∀ h : Option Nat, escalationWaitTime (collector_rate_limit h) = 300)
    ∧ (∀ (f : Nat → FetchResult) (w : Nat → Bool) (it skip : Bool) (now : DateTime)
        (st : CycleSt),
        (∀ i e, f i = FetchResult.rateLimited e → ∃ hd, e = collector_rate_limit hd) →
        (sync_data_dates f w it skip now st).events.filter isQuotaSkip
          = st.events.filter isQuotaSkip) := by
  refine ⟨fun h => ⟨rfl, rfl, rfl⟩, fun h => rfl, fun h => rfl, ?_⟩
  intro f w it skip now st hcol
  have hq : ∀ i e, f i = FetchResult.rateLimited e → quotaExhausted e = false := by
    intro i e he
    obtain ⟨hd, rfl⟩ := hcol i e he
    rfl
  unfold sync_data_dates
  cases it <;>
    simp [List.foldl, sync_one_date_noQuotaSkip f w skip now _ hq]

/-- C9 witness: a cycle whose every fetch is rate-limited by the collector
performs no quota-exhausted skip. -/
theorem c9_witness :
    (sync_data_dates (fun _ => FetchResult.rateLimited (collector_rate_limit none))
        (fun _ => true) true false ⟨10, 720⟩ ⟨⟨some 9⟩, 0, 0, []⟩).events.filter isQuotaSkip
      = (⟨⟨some 9⟩, 0, 0, []⟩ : CycleSt).events.filter isQuotaSkip :=
  c9_collector_never_quota.2.2.2 (fun _ => FetchResult.rateLimited (collector_rate_limit none))
    (fun _ => true) true false ⟨10, 720⟩ ⟨⟨some 9⟩, 0, 0, []⟩
    (fun _ e he => ⟨none, by injection he with h; exact h.symm⟩)


/-- C1: the claim says no engine code path ever hands `update_last_sync` a
date strictly earlier than the stored one.  The historical-backfill path
does exactly that by design: with the checkpoint current (here day 4 at an
exact-midnight `now` of day 5) and `BACKFILL_START_DATE = 1`, the engine
re-syncs `[1, 3]` and rewrites the checkpoint from day 4 back to day 3. -/
theorem c1_counterexample :
    (backfill_data (fun _ => FetchResult.ok) (fun _ => true) 50 (some 1)
        ProfileResult.fetchFailed ⟨5, 0⟩ ⟨some 4⟩ 0 0).state.last = some 3
    ∧ updatesOf (backfill_data (fun _ => FetchResult.ok) (fun _ => true) 50 (some 1)
        ProfileResult.fetchFailed ⟨5, 0⟩ ⟨some 4⟩ 0 0).events = [3]
    ∧ (3 : Int) < 4 :=
  ⟨rfl, rfl, by decide⟩

/-- C1 (amended): outside the configured historical-backfill path the
checkpoint never regresses.  (a) The per-date steady-state loop, started
with a stored day `L` at most yesterday, ends with a stored day `>= L`.
(b) A `backfill_data` run whose stored day `L` is strictly behind yesterday
(the gap-fill branch, the one every steady-state cycle can trigger) ends
with a stored day `>= L`, and every date it passes to `update_last_sync`
along the way is `>= L`. -/
theorem c1_monotone_amended :
    (∀ (f : Nat → FetchResult) (w : Nat → Bool) (it skip : Bool) (now : DateTime)
        (st : CycleSt) (L : Int), st.state.last = some L → L ≤ now.day - 1 →
        ∃ M, (sync_data_dates f w it skip now st).state.last = some M ∧ L ≤ M)
    ∧ (∀ (f : Nat → FetchResult) (w : Nat → Bool) (fuel : Nat) (cfgStart : Option Int)
        (profile : ProfileResult) (now : DateTime) (L : Int) (fIdx wIdx : Nat),
        DateTime.leB (now.addDays (-1)) (dateTicks L) = false →
        (∃ M, (backfill_data f w fuel cfgStart profile now ⟨some L⟩ fIdx wIdx).state.last
            = some M ∧ L ≤ M)
        ∧ ∀ d ∈ updatesOf
            (backfill_data f w fuel cfgStart profile now ⟨some L⟩ fIdx wIdx).events,
            L ≤ d) := by
  constructor
  · intro f w it skip now st L hL hLy
    rcases sync_data_dates_spec f w it skip now st with ⟨hs, _⟩ | ⟨_, hs, _⟩
    · exact ⟨L, by rw [hs, hL], le_refl L⟩
    · exact ⟨now.day - 1, hs, hLy⟩
  · intro f w fuel cfgStart profile now L fIdx wIdx hgap
    unfold backfill_data
    dsimp only
    rw [hgap]
    simp only [Bool.false_eq_true, if_false, ite_false]
    by_cases hrun : DateTime.leB ((dateTicks L).addDays 1) (now.addDays (-1)) = true
    · rw [if_pos hrun]
      unfold backfill_with_incremental_sync
      have hinv : BfInv L (initBackfillSt ⟨some L⟩ ((dateTicks L).addDays 1) fIdx wIdx
          [Event.backfillRun ((dateTicks L).addDays 1) (now.addDays (-1))]) := by
        refine ⟨⟨L, rfl, le_refl L⟩, by simp [initBackfillSt], ?_, ?_⟩
        · simp [initBackfillSt, dateTicks, DateTime.addDays]
        · intro d hd
          simp [initBackfillSt, updatesOf_brun] at hd
      have h := backfillLoop_inv f w (now.addDays (-1)) fuel _ hinv
      obtain ⟨⟨M, hM, hLM⟩, _, _, hu⟩ := h
      exact ⟨⟨M, hM, hLM⟩, hu⟩
    · rw [if_neg hrun]
      refine ⟨⟨L, rfl, le_refl L⟩, ?_⟩
      intro d hd
      simp [initBackfillSt, updatesOf] at hd

/-- C1 witness: both amended parts at concrete inputs — a cycle starting at
checkpoint 1 with `now` on day 5, and a gap-fill backfill from the same
checkpoint. -/
theorem c1_witness :
    (∃ M, (sync_data_dates (fun _ => FetchResult.ok) (fun _ => true) true false ⟨5, 720⟩
        ⟨⟨some 1⟩, 0, 0, []⟩).state.last = some M ∧ 1 ≤ M)
    ∧ (∃ M, (backfill_data (fun _ => FetchResult.ok) (fun _ => true) 50 none
        ProfileResult.fetchFailed ⟨5, 720⟩ ⟨some 1⟩ 0 0).state.last = some M ∧ 1 ≤ M) := by
  constructor
  · exact c1_monotone_amended.1 (fun _ => FetchResult.ok) (fun _ => true) true false ⟨5, 720⟩
      ⟨⟨some 1⟩, 0, 0, []⟩ 1 rfl (by decide)
  · exact (c1_monotone_amended.2 (fun _ => FetchResult.ok) (fun _ => true) 50 none
      ProfileResult.fetchFailed ⟨5, 720⟩ 1 0 0 (by decide)).1

/-- C3: escalation after three consecutive rate-limit hits.  The extended
wait is the signal's quota-reset time exactly when `remaining <= 0` and a
(non-zero) `quota_reset` is attached, and the fixed 300 seconds otherwise;
and with every fetch rate-limited, a backfill run performs exactly 4 fetch
attempts on the start date — two transient waits, then one escalated wait
followed by exactly one final retry — and aborts, identically for every
fuel of at least 3 (so there is no unbounded retry loop on one date). -/
theorem c3_escalation :
    (∀ (e : RateLimitError) (r : Int) (q : Nat), e.remaining = some r → r ≤ 0 →
        e.quota_reset = some q → 0 < q → escalationWaitTime e = q)
    ∧ (∀ e : RateLimitError, e.remaining = none → escalationWaitTime e = 300)
    ∧ (∀ (e : RateLimitError) (w : Nat → Bool) (endTs : DateTime) (state : SyncState)
        (startTs : DateTime) (fIdx wIdx : Nat) (evs : List Event) (fuel : Nat),
        3 ≤ fuel → DateTime.leB startTs endTs = true →
        backfillLoop (fun _ => FetchResult.rateLimited e) w endTs fuel
            (initBackfillSt state startTs fIdx wIdx evs)
          = { state := state, batch := [], current := startTs, consec := 3,
              fIdx := fIdx + 4, wIdx := wIdx, totalS := 0, totalF := 0,
              events := evs ++ [Event.fetchAttempt startTs.day,
                Event.waited (baseWaitTime e),
                Event.fetchAttempt startTs.day, Event.waited (baseWaitTime e),
                Event.fetchAttempt startTs.day,
                Event.escalated (escalationWaitTime e),
                Event.waited (escalationWaitTime e),
                Event.fetchAttempt startTs.day, Event.abortedBackfill] }) := by
  refine ⟨?_, ?_, ?_⟩
  · intro e r q hr hr0 hq hq0
    unfold escalationWaitTime quotaExhausted quotaResetTruthy
    rw [hr, hq]
    simp only [Option.getD_some]
    rw [if_pos]
    simp only [Bool.and_eq_true, decide_eq_true_iff]
    exact ⟨hr0, by omega⟩
  · intro e hr
    unfold escalationWaitTime quotaExhausted
    rw [hr]
    rfl
  · intro e w endTs state startTs fIdx wIdx evs fuel hfuel hle
    exact backfillLoop_all_rate_limited e w endTs state startTs fIdx wIdx evs fuel hfuel hle

/-- C3 witness: the spec's example — `remaining = 0`, `quota_reset = 1800` —
escalates with a 1800-second wait, one final retry, then aborts, with
exactly 4 fetch attempts. -/
theorem c3_witness :
    escalationWaitTime ⟨some 60, some 0, some 1800⟩ = 1800
    ∧ backfillLoop (fun _ => FetchResult.rateLimited ⟨some 60, some 0, some 1800⟩)
        (fun _ => true) ⟨3, 0⟩ 3 (initBackfillSt ⟨some 0⟩ ⟨1, 0⟩ 0 0 [])
      = { state := ⟨some 0⟩, batch := [], current := ⟨1, 0⟩, consec := 3,
          fIdx := 4, wIdx := 0, totalS := 0, totalF := 0,
          events := [Event.fetchAttempt 1, Event.waited 60,
            Event.fetchAttempt 1, Event.waited 60, Event.fetchAttempt 1,
            Event.escalated 1800, Event.waited 1800,
            Event.fetchAttempt 1, Event.abortedBackfill] } := by
  constructor
  · exact c3_escalation.1 ⟨some 60, some 0, some 1800⟩ 0 1800 rfl (by decide) rfl (by decide)
  · have h := c3_escalation.2.2 ⟨some 60, some 0, some 1800⟩ (fun _ => true) ⟨3, 0⟩
      ⟨some 0⟩ ⟨1, 0⟩ 0 0 [] 3 (by decide) (by decide)
    simpa using h


/-- C4: a steady-state cycle with `last_synced_date = D` and
`yesterday(now) = D + 3` triggers exactly one backfill pass, and that pass
computes `start_date = D + 1` (midnight) and `end_date = yesterday(now)`;
with every fetch succeeding the pass attempts exactly the days
`[D+1, D+2, D+3]`; and whenever the computed start date exceeds the end
date (here: a configured start date past yesterday on a first run) the
backfill is a no-op that fetches and writes nothing. -/
theorem c4_gap_backfill_range :
    (∀ (f : Nat → FetchResult) (w : Nat → Bool) (fuel : Nat) (profile : ProfileResult)
        (it : Bool) (D : Int) (m : Nat),
        (sync_data f w fuel none profile it ⟨D + 4, m⟩ ⟨some D⟩ 0 0).events.filter
            isBackfillRun
          = [Event.backfillRun ⟨D + 1, 0⟩ ⟨D + 3, m⟩])
    ∧ (∀ (w : Nat → Bool) (fuel : Nat) (profile : ProfileResult) (D : Int) (m : Nat),
        3 ≤ fuel →
        fetchedDays (backfill_data (fun _ => FetchResult.ok) w fuel none profile
            ⟨D + 4, m⟩ ⟨some D⟩ 0 0).events = [D + 1, D + 2, D + 3])
    ∧ (∀ (f : Nat → FetchResult) (w : Nat → Bool) (fuel : Nat) (profile : ProfileResult)
        (now : DateTime) (S : Int) (fIdx wIdx : Nat),
        DateTime.leB (dateTicks S) (now.addDays (-1)) = false →
        (backfill_data f w fuel (some S) profile now ⟨none⟩ fIdx wIdx).events = []
        ∧ (backfill_data f w fuel (some S) profile now ⟨none⟩ fIdx wIdx).state = ⟨none⟩) := by
  have hend : ∀ (D : Int) (m : Nat),
      (⟨D + 4, m⟩ : DateTime).addDays (-1) = ⟨D + 3, m⟩ := by
    intro D m
    simp [DateTime.addDays, DateTime.mk.injEq]
    omega
  have hno : ∀ (D : Int) (m : Nat),
      DateTime.leB ⟨D + 3, m⟩ (dateTicks D) = false := by
    intro D m
    simp [DateTime.leB, dateTicks]
  have hyes : ∀ (D : Int) (m : Nat),
      DateTime.leB ⟨D + 1, 0⟩ ⟨D + 3, m⟩ = true := by
    intro D m
    simp [DateTime.leB]
  refine ⟨?_, ?_, ?_⟩
  · intro f w fuel profile it D m
    unfold sync_data
    dsimp only
    have hgap : DateTime.ltB (dateTicks D)
        ((⟨D + 4, m⟩ : DateTime).addDays (-1)).midnight = true := by
      simp [DateTime.ltB, DateTime.leB, DateTime.midnight, DateTime.addDays, dateTicks]
      omega
    rw [if_pos hgap]
    rw [sync_data_dates_filter syncSilent_isBackfillRun]
    dsimp only
    unfold backfill_data
    dsimp only
    rw [hend D m, hno D m]
    rw [if_neg Bool.false_ne_true]
    rw [show (dateTicks D).addDays 1 = (⟨D + 1, 0⟩ : DateTime) from rfl]
    rw [hyes D m]
    rw [if_pos rfl]
    unfold backfill_with_incremental_sync
    rw [backfillLoop_filter backfillSilent_isBackfillRun]
    simp [initBackfillSt, List.filter, isBackfillRun]
  · intro w fuel profile D m hfuel
    unfold backfill_data
    dsimp only
    rw [hend D m, hno D m]
    rw [if_neg Bool.false_ne_true]
    rw [show (dateTicks D).addDays 1 = (⟨D + 1, 0⟩ : DateTime) from rfl]
    rw [hyes D m]
    rw [if_pos rfl]
    unfold backfill_with_incremental_sync
    rw [backfillLoop_all_ok w (D + 3) m fuel _ (D + 1) rfl (by omega)]
    have h3 : (D + 3 + 1 - (D + 1)).toNat = 3 := by omega
    rw [h3]
    simp [initBackfillSt, fetchedDays, dayRange]
    omega
  · intro f w fuel profile now S fIdx wIdx hle
    unfold backfill_data
    dsimp only
    rw [hle]
    rw [if_neg Bool.false_ne_true]
    exact ⟨rfl, rfl⟩

/-- C4 witness: the gap `D = 10`, `now = (day 14, 12:00)` instance of the
covering part, and a no-op instance with a configured start date beyond
yesterday. -/
theorem c4_witness :
    fetchedDays (backfill_data (fun _ => FetchResult.ok) (fun _ => true) 10 none
        ProfileResult.fetchFailed ⟨14, 720⟩ ⟨some 10⟩ 0 0).events = [11, 12, 13]
    ∧ (backfill_data (fun _ => FetchResult.ok) (fun _ => true) 10 (some 20)
        ProfileResult.fetchFailed ⟨14, 720⟩ ⟨none⟩ 0 0).events = [] := by
  constructor
  · have h := c4_gap_backfill_range.2.1 (fun _ => true) 10 ProfileResult.fetchFailed 10 720
      (by decide)
    simpa using h
  · exact (c4_gap_backfill_range.2.2 (fun _ => FetchResult.ok) (fun _ => true) 10
      ProfileResult.fetchFailed ⟨14, 720⟩ 20 0 0 (by decide)).1

/-- C10: the claim's final part says a first run with no checkpoint and no
configured start date always backfills from at most 30 days ago.  When the
profile carries `memberSince`, the backfill starts there instead, which can
be arbitrarily older: with `memberSince = day 950` and `now = day 1000`,
the pass starts at day 950, which is more than 30 days before `now`. -/
theorem c10_counterexample :
    (backfill_data (fun _ => FetchResult.ok) (fun _ => true) 300 none
        (ProfileResult.memberSince 950) ⟨1000, 720⟩ ⟨none⟩ 0 0).events.filter isBackfillRun
      = [Event.backfillRun ⟨950, 0⟩ ⟨999, 720⟩]
    ∧ (950 : Int) < 1000 - 30 :=
  ⟨rfl, by decide⟩

/-- C10 (amended): `get_first_available_date` never returns `None` — on a
failed profile lookup or a missing `memberSince` it falls back to exactly
30 days before `now` — so the backfill planner's "could not determine first
available date" early return is unreachable with this collector; a first
run with no checkpoint and no configured start date starts from the
member-since date when available (possibly more than 30 days ago) and from
exactly 30 days ago otherwise. -/
theorem c10_first_available_amended :
    (∀ (profile : ProfileResult) (now : DateTime),
        ∃ t, get_first_available_date profile now = some t)
    ∧ (∀ now : DateTime,
        get_first_available_date ProfileResult.fetchFailed now = some (now.addDays (-30))
        ∧ get_first_available_date ProfileResult.noMemberSince now = some (now.addDays (-30))
        ∧ ∀ d : Int, get_first_available_date (ProfileResult.memberSince d) now
            = some (dateTicks d))
    ∧ (∀ (f : Nat → FetchResult) (w : Nat → Bool) (fuel : Nat) (profile : ProfileResult)
        (now : DateTime) (fIdx wIdx : Nat),
        (backfill_data f w fuel none profile now ⟨none⟩ fIdx wIdx).events.filter isCND
          = []) := by
  refine ⟨?_, ?_, ?_⟩
  · intro profile now
    cases profile <;> exact ⟨_, rfl⟩
  · intro now
    exact ⟨rfl, rfl, fun d => rfl⟩
  · intro f w fuel profile now fIdx wIdx
    unfold backfill_data
    dsimp only
    cases profile with
    | fetchFailed =>
      dsimp only [get_first_available_date]
      split
      · unfold backfill_with_incremental_sync
        rw [backfillLoop_filter backfillSilent_isCND]
        simp [initBackfillSt, List.filter, isCND]
      · rfl
    | noMemberSince =>
      dsimp only [get_first_available_date]
      split
      · unfold backfill_with_incremental_sync
        rw [backfillLoop_filter backfillSilent_isCND]
        simp [initBackfillSt, List.filter, isCND]
      · rfl
    | memberSince d =>
      dsimp only [get_first_available_date]
      split
      · unfold backfill_with_incremental_sync
        rw [backfillLoop_filter backfillSilent_isCND]
        simp [initBackfillSt, List.filter, isCND]
      · rfl

end Syncbit
